import Mathlib

/-
Verification development for the responsys client library (Python).

The library's core is a session-lifecycle and type-marshaling layer:
`types.py` implements the InteractType wire-object adapter family and
`client.py` implements the InteractClient session state machine and fault
translation.  This file shallowly embeds those parts of the source and
proves or refutes the specified properties about them.  All definitions
come first, followed by the theorems.
-/

namespace Responsys

/-- A shallow model of the Python values stored in wire-object attributes:
None, booleans, integers and strings. -/
inductive PyVal where
  | none : PyVal
  | bool : Bool → PyVal
  | int : Int → PyVal
  | str : String → PyVal
  deriving DecidableEq

/-! ## Association-list helpers

Python object attribute dictionaries and plain dicts are modeled as
insertion-ordered association lists with string keys. -/

/-- Attribute/dict lookup: first entry with the given key, if any. -/
def lookupA (k : String) : List (String × PyVal) → Option PyVal
  | [] => Option.none
  | (k1, v) :: rest => if k1 = k then some v else lookupA k rest

/-- Python setattr / dict assignment: overwrite the entry in place when the
key is present, append it otherwise. -/
def setA (l : List (String × PyVal)) (k : String) (v : PyVal) : List (String × PyVal) :=
  match l with
  | [] => [(k, v)]
  | (k1, v1) :: rest => if k1 = k then (k1, v) :: rest else (k1, v1) :: setA rest k v

/-- The keys of an association list, in order. -/
def keysA (l : List (String × PyVal)) : List String := l.map Prod.fst

/-! ## types.py: InteractType

The wire-type adapter.  An instance's registered soap attributes are its
`_attributes` set together with the values stored by `setattr`; both are
modeled by one insertion-ordered association list with distinct keys. -/

/-- Python str.split on a single underscore separator, e.g. the empty string
splits to one empty word and consecutive separators produce empty words. -/
def splitUnderscore : List Char → List (List Char)
  | [] => [[]]
  | c :: cs =>
    if c = '_' then [] :: splitUnderscore cs
    else
      match splitUnderscore cs with
      | [] => [[c]]
      | w :: ws => (c :: w) :: ws

/-- Python str.capitalize: first character uppercased, the rest lowercased. -/
def capitalizeW : List Char → List Char
  | [] => []
  | c :: cs => c.toUpper :: cs.map Char.toLower

/-- types.py, InteractType.get_soap_object.to_soap_attribute: split the local
attribute name on underscores, capitalize every word but the first, and
concatenate. -/
def toSoapAttribute (attr : String) : String :=
  let ws := splitUnderscore attr.data
  let ws2 := ws.take 1 ++ (ws.drop 1).map capitalizeW
  String.mk ws2.flatten

/-- An InteractType instance: its registered soap attributes with their
current values, in registration order. -/
structure InteractType where
  attrs : List (String × PyVal)
  deriving DecidableEq

/-- types.py, InteractType.soap_attribute: setattr plus registration of the
name in the `_attributes` set. -/
def soapAttribute (t : InteractType) (name : String) (v : PyVal) : InteractType :=
  ⟨setA t.attrs name v⟩

/-- types.py, InteractType.__init__/set_attributes: register every keyword
argument in order. -/
def interactTypeInit (kwargs : List (String × PyVal)) : InteractType :=
  kwargs.foldl (fun t p => soapAttribute t p.1 p.2) ⟨[]⟩

/-- Python getattr on an instance, restricted to registered attributes. -/
def pyGetattr (t : InteractType) (name : String) : Option PyVal :=
  lookupA name t.attrs

/-- The fields of a soap structure produced by the factory, as set by
setattr calls. -/
def fldLookup (so : List (String × PyVal)) (n : String) : Option PyVal :=
  lookupA n so

/-- types.py, InteractType.get_soap_object: create an empty structure and,
for every registered attribute, set the camel-cased field to the
attribute's current value. -/
def getSoapObject (t : InteractType) : List (String × PyVal) :=
  t.attrs.foldl (fun so p => setA so (toSoapAttribute p.1) p.2) []

/-- types.py, InteractType.__eq__: build the list of pairwise comparisons of
the receiver's registered attributes against the other object (so a missing
attribute on the other object raises AttributeError), then take `all`. -/
def pyEq (a b : InteractType) : Except Unit Bool :=
  if (keysA a.attrs).all (fun n => (pyGetattr b n).isSome) then
    Except.ok ((keysA a.attrs).all (fun n => pyGetattr a n == pyGetattr b n))
  else Except.error ()

/-- Stated from the spec's words, for comparison with pyEq: two instances
are equal iff every registered attribute of each instance compares equal to
the same-named attribute of the other. -/
def specAttrsEqualB (a b : InteractType) : Bool :=
  ((keysA a.attrs).all fun n => (pyGetattr b n).isSome && (pyGetattr a n == pyGetattr b n)) &&
  ((keysA b.attrs).all fun n => (pyGetattr a n).isSome && (pyGetattr a n == pyGetattr b n))

/-- types.py, InteractObject.set_attributes: registers folder_name then
object_name. -/
def interactObjectInit (folder_name object_name : PyVal) : InteractType :=
  soapAttribute (soapAttribute ⟨[]⟩ "folder_name" folder_name) "object_name" object_name

/-- An instance registering two attribute names that camel-case to the same
wire field name. -/
def c2Collide : InteractType :=
  interactTypeInit [("foo_bar", PyVal.int 1), ("foo__bar", PyVal.int 2)]

/-- An instance with one registered attribute. -/
def c9Small : InteractType := interactTypeInit [("foo", PyVal.int 1)]

/-- An instance with the same attribute plus an extra one. -/
def c9Large : InteractType := interactTypeInit [("foo", PyVal.int 1), ("bar", PyVal.int 2)]

/-- A concrete InteractObject, as built by InteractObject.set_attributes. -/
def c9W : InteractType := interactObjectInit (PyVal.str "folder") (PyVal.str "object")

/-! ## types.py: ListMergeRule -/

/-- types.py ListMergeRule.DEFAULTS, in source order. -/
def lmrDefaults : List (String × PyVal) :=
  [("insert_on_no_match", PyVal.bool true),
   ("update_on_match", PyVal.str "REPLACE_ALL"),
   ("match_column_name_1", PyVal.str "Customer_Id_"),
   ("match_column_name_2", PyVal.none),
   ("match_column_name_3", PyVal.none),
   ("match_operator", PyVal.str "NONE"),
   ("optin_value", PyVal.str "I"),
   ("optout_value", PyVal.str "O"),
   ("html_value", PyVal.str "H"),
   ("text_value", PyVal.str "T"),
   ("reject_record_if_channel_empty", PyVal.str "E"),
   ("default_permission_status", PyVal.str "OPTIN")]

/-- The attribute names ListMergeRule.set_attributes registers, in call
order (which coincides with the DEFAULTS order). -/
def lmrNames : List String := lmrDefaults.map Prod.fst

/-- The dictionary built by ListMergeRule.set_attributes: options =
DEFAULTS.copy(); options.update(overrides); then options[k]. -/
def lmrOption (overrides : List (String × PyVal)) (k : String) : PyVal :=
  match lookupA k overrides with
  | some v => v
  | Option.none => (lookupA k lmrDefaults).getD PyVal.none

/-- types.py ListMergeRule.set_attributes: one soap_attribute call per
option key, in source order, with the override-or-default value. -/
def listMergeRuleInit (overrides : List (String × PyVal)) : InteractType :=
  interactTypeInit (lmrNames.map fun n => (n, lmrOption overrides n))

/-! ## types.py: Record and RecordData -/

/-- The Python exceptions raised by the embedded types.py code paths. -/
inductive PyExc where
  | assertionError (msg : String)
  | keyError (key : String)
  | attributeError (msg : String)
  deriving DecidableEq

/-- Python list comprehension over fallible element computations: elements
are produced left to right and the first raised exception propagates. -/
def mapE {α β : Type} (f : α → Except PyExc β) : List α → Except PyExc (List β)
  | [] => Except.ok []
  | x :: xs =>
    match f x with
    | Except.error e => Except.error e
    | Except.ok y =>
      match mapE f xs with
      | Except.error e => Except.error e
      | Except.ok ys => Except.ok (y :: ys)

/-- A row mapping (Python dict): insertion-ordered, distinct keys. -/
abbrev Row := List (String × PyVal)

/-- An element of RecordData.records: set_attributes stores plain Python
lists, while the separate Record type of types.py wraps a value sequence
as its field_values attribute. -/
inductive RDElem where
  | plainList (xs : List PyVal)
  | recordObj (field_values : List PyVal)
  deriving DecidableEq

/-- Python attribute access record.field_values: defined on Record
instances, AttributeError on plain lists. -/
def RDElem.fieldValuesAttr : RDElem → Except PyExc (List PyVal)
  | .plainList _ => Except.error (.attributeError "list object has no attribute field_values")
  | .recordObj fvs => Except.ok fvs

/-- The underlying value sequence of a records element, however wrapped. -/
def RDElem.values : RDElem → List PyVal
  | .plainList xs => xs
  | .recordObj fvs => fvs

/-- types.py RecordData: field_names plus the stored records. -/
structure RecordData where
  field_names : List String
  records : List RDElem
  deriving DecidableEq

/-- The message of the non-empty assertion in RecordData.set_attributes. -/
def assertMsgNonZero : String := "Record list length must be non-zero"

/-- types.py RecordData.set_attributes: assert the row list non-empty, take
field_names from the first row's keys in order, and store, for every row in
order, the plain list projecting that row onto field_names (KeyError when a
row lacks a declared field). -/
def recordDataInit (record_data : List Row) : Except PyExc RecordData :=
  match record_data with
  | [] => Except.error (.assertionError assertMsgNonZero)
  | r0 :: _ =>
    let field_names := r0.map Prod.fst
    match mapE (fun r => mapE (fun fn =>
        match lookupA fn r with
        | some v => Except.ok v
        | Option.none => Except.error (PyExc.keyError fn)) field_names) record_data with
    | Except.error e => Except.error e
    | Except.ok recs => Except.ok ⟨field_names, recs.map RDElem.plainList⟩

/-- types.py RecordData.__iter__: for every stored record, read
record.field_values and zip field_names with it into a dict. -/
def recordDataIterPy (rd : RecordData) : Except PyExc (List Row) :=
  mapE (fun rec => match RDElem.fieldValuesAttr rec with
    | Except.error e => Except.error e
    | Except.ok fvs => Except.ok (rd.field_names.zip fvs)) rd.records

/-- Modelled from the spec: the inverse direction produces row mappings
from a populated RecordData by zipping field_names with each record's value
sequence positionally (the iteration §4.2 of the spec describes; the
source's __iter__ instead reads a field_values attribute off the stored
plain lists and therefore raises). -/
def recordDataIterSpec (rd : RecordData) : List Row :=
  rd.records.map (fun rec => rd.field_names.zip rec.values)

/-! ## types.py: MergeResult.failed

The failed property runs re.findall of the pattern Record-space, a
captured greedy run of ASCII digits, then space-equals over the error
message, and maps each capture through the and-or idiom
f.isnumeric() and int(f) or f. -/

/-- Prefix test on character lists, pattern first. -/
def startsWith : List Char → List Char → Bool
  | [], _ => true
  | _ :: _, [] => false
  | p :: ps, c :: cs => p == c && startsWith ps cs

/-- The literal part of the pattern before the capture group. -/
def pRecord : List Char := "Record ".data

/-- The literal part of the pattern after the capture group. -/
def pEq : List Char := " =".data

/-- Attempt to match the pattern at the head of the input; on success
return the captured digit run and the input remaining after the match.
The digit run is greedy, and only the maximal run can be followed by the
space of the closing literal, so no backtracking arises. -/
def tryMatchRecord (cs : List Char) : Option (List Char × List Char) :=
  if startsWith pRecord cs then
    let after := cs.drop pRecord.length
    let digits := after.takeWhile Char.isDigit
    let after2 := after.drop digits.length
    if startsWith pEq after2 then some (digits, after2.drop pEq.length)
    else Option.none
  else Option.none

/-- The left-to-right, non-overlapping scan of re.findall, with fuel equal
to the input length: each step consumes at least one character (a
successful match at least nine), so the fuel never runs out before the
input does (findallAux_fuel below). -/
def findallAux : Nat → List Char → List (List Char)
  | 0, _ => []
  | _ + 1, [] => []
  | fuel + 1, c :: rest =>
    match tryMatchRecord (c :: rest) with
    | some (cap, after) => cap :: findallAux fuel after
    | Option.none => findallAux fuel rest

/-- re.findall of the Record-index pattern over a string: the list of
captured digit runs, in message order. -/
def reFindall (s : String) : List (List Char) := findallAux s.data.length s.data

/-- Python str.isnumeric restricted to the captured runs (which only ever
contain ASCII digits): true iff non-empty. -/
def pyIsnumeric (s : List Char) : Bool := !s.isEmpty && s.all Char.isDigit

/-- Python int() on a digit run. -/
def digitsToNat (s : List Char) : Nat :=
  s.foldl (fun n c => 10 * n + (c.toNat - Char.toNat '0')) 0

/-- The and-or idiom applied to one capture: f.isnumeric() and int(f) or f
evaluates to the integer when it is truthy (non-zero), else to the string
itself. -/
def mergeFailedEntry (f : List Char) : PyVal :=
  if pyIsnumeric f && decide (digitsToNat f ≠ 0) then PyVal.int (digitsToNat f)
  else PyVal.str (String.mk f)

/-- types.py MergeResult.failed: empty when the error message is falsy
(absent or empty), otherwise the converted pattern captures, with the
final falsy-to-empty normalization of the or-else-empty-list return. -/
def mergeResultFailed (error_message : Option String) : List PyVal :=
  match error_message with
  | Option.none => []
  | some s =>
    if s = "" then []
    else if ((reFindall s).map mergeFailedEntry).isEmpty then []
    else (reFindall s).map mergeFailedEntry

/-! ## exceptions.py and the fault translation of client.py call() -/

/-- The class names defined by exceptions.py.  Note that ListFault is not
among them, and that TableFault is the only one with a custom two-argument
initializer. -/
def exceptionsModuleNames : List String :=
  ["AccountFault", "ConnectError", "ApiLimitError", "TableFault", "ServiceError"]

/-- The names client.py imports from exceptions.py. -/
def clientExceptionImports : List String :=
  ["ConnectError", "ServiceError", "AccountFault", "ApiLimitError", "TableFault", "ListFault"]

/-- Whether the from-import of client.py resolves: every imported name
must be defined by exceptions.py, else the module fails to load. -/
def clientImportsResolve : Bool :=
  clientExceptionImports.all (fun n => exceptionsModuleNames.contains n)

/-- The exceptions a call() invocation can surface.  typeError models
calling a constructor with the wrong arity; nameError models executing a
raise of a class name the exceptions module does not define. -/
inductive RaisedError where
  | connectError (msg : String)
  | tableFault (code : String) (message : String)
  | listFault (msg : String)
  | apiLimitError (msg : String)
  | accountFault (msg : String)
  | serviceError (fault_name : Option String) (detail : String)
  | typeError (msg : String)
  | nameError (name : String)
  deriving DecidableEq

/-- exceptions.py TableFault.__init__(self, code, message): two required
positional arguments; any other arity is a TypeError at the call. -/
def tableFaultNew (args : List String) : Except String RaisedError :=
  match args with
  | [code, message] => Except.ok (RaisedError.tableFault code message)
  | _ => Except.error "TableFault.__init__ takes exactly two positional arguments"

/-- The outcome of the transport invocation inside call(): a value, a
URLError (timeout/unreachable), or a WebFault carrying the fault's
faultstring (None when absent) and its detail payload. -/
inductive TransportResult where
  | success (v : PyVal)
  | urlError (msg : String)
  | webFault (faultstring : Option String) (detail : String)
  deriving DecidableEq

/-- client.py call(), lines 110-128: translate the transport outcome.  The
TableFault branch executes TableFault(error) with a single argument — a
TypeError under the exceptions.py initializer; the ListFault branch names
a class the exceptions module does not define, so executing it raises a
NameError (indeed the from-import of client.py already fails on that
name, see clientImportsResolve). -/
def callDispatch (tr : TransportResult) : Except RaisedError PyVal :=
  match tr with
  | .success v => Except.ok v
  | .urlError _ => Except.error (RaisedError.connectError "Request to service timed out")
  | .webFault fs detail =>
    if fs = some "TableFault" then
      match tableFaultNew [detail] with
      | Except.ok e => Except.error e
      | Except.error m => Except.error (RaisedError.typeError m)
    else if fs = some "ListFault" then
      if exceptionsModuleNames.contains "ListFault" then
        Except.error (RaisedError.listFault detail)
      else Except.error (RaisedError.nameError "ListFault")
    else if fs = some "API_LIMIT_EXCEEDED" then Except.error (RaisedError.apiLimitError detail)
    else if fs = some "AccountFault" then Except.error (RaisedError.accountFault detail)
    else Except.error (RaisedError.serviceError fs detail)

/-! ## client.py: InteractClient session state machine -/

/-- The observable session state of one InteractClient: the stored session
(id and issue time), the effective session lifetime, the connected marker
(False modeled as none, a connection time as some), and counters of the
login and logout exchanges performed against the transport. -/
structure ClientState where
  session : Option (PyVal × Int)
  session_lifetime : Int
  connected : Option Int
  loginCount : Nat
  logoutCount : Nat
  deriving DecidableEq

/-- client.py DEFAULT_SESSION_LIFETIME = 60 * 10 seconds. -/
def DEFAULT_SESSION_LIFETIME : Int := 60 * 10

/-- client.py __init__: self.session_lifetime = session_lifetime or
DEFAULT_SESSION_LIFETIME, where both None and 0 are falsy. -/
def effectiveLifetime (session_lifetime : Option Int) : Int :=
  match session_lifetime with
  | Option.none => DEFAULT_SESSION_LIFETIME
  | some v => if v = 0 then DEFAULT_SESSION_LIFETIME else v

/-- client.py __init__: no session, not connected, no exchanges yet. -/
def interactClientInit (session_lifetime : Option Int) : ClientState :=
  { session := Option.none, session_lifetime := effectiveLifetime session_lifetime,
    connected := Option.none, loginCount := 0, logoutCount := 0 }

/-- The Session.is_expired property: the issue time plus the current
session_lifetime is at or before now; False when no session exists. -/
def sessionExpiredAt (c : ClientState) (now : Int) : Bool :=
  match c.session with
  | Option.none => false
  | some (_, issued) => decide (issued + c.session_lifetime ≤ now)

/-- The connect guard: not self.session or self.session.is_expired. -/
def needsLogin (c : ClientState) (now : Int) : Bool :=
  c.session.isNone || sessionExpiredAt c now

/-- client.py connect(): perform the login exchange and install a fresh
session exactly when no session exists or the existing one is expired,
then set the connected marker to now. -/
def connect (c : ClientState) (now : Int) (newSessionId : PyVal) : ClientState :=
  let c1 := if needsLogin c now then
      { c with loginCount := c.loginCount + 1, session := some (newSessionId, now) }
    else c
  { c1 with connected := some now }

/-- client.py disconnect(): clear the connected marker; when the session
is present and expired, or abandon_session is passed, perform the logout
exchange and clear the session. -/
def disconnect (c : ClientState) (now : Int) (abandon_session : Bool) : ClientState :=
  let c1 : ClientState := { c with connected := Option.none }
  if (c1.session.isSome && sessionExpiredAt c1 now) || abandon_session then
    { c1 with logoutCount := c1.logoutCount + 1, session := Option.none }
  else c1

/-! # Theorems -/

theorem lookupA_eq_none_iff (k : String) (l : List (String × PyVal)) :
    lookupA k l = Option.none ↔ k ∉ keysA l := by
  induction l with
  | nil => simp [lookupA, keysA]
  | cons p rest ih =>
    obtain ⟨k1, v⟩ := p
    by_cases h : k1 = k
    · subst h
      simp [lookupA, keysA]
    · simp [lookupA, keysA, h, Ne.symm h, ih]

theorem lookupA_isSome_of_mem (k : String) (l : List (String × PyVal))
    (h : k ∈ keysA l) : ∃ v, lookupA k l = some v := by
  cases hl : lookupA k l with
  | none => exact absurd ((lookupA_eq_none_iff k l).mp hl) (fun hn => hn h)
  | some v => exact ⟨v, rfl⟩

theorem lookupA_of_mem_nodup (k : String) (v : PyVal) (l : List (String × PyVal))
    (hnd : (keysA l).Nodup) (hmem : (k, v) ∈ l) : lookupA k l = some v := by
  induction l with
  | nil => cases hmem
  | cons p rest ih =>
    obtain ⟨k1, v1⟩ := p
    simp only [keysA, List.map_cons, List.nodup_cons] at hnd
    rcases List.mem_cons.mp hmem with heq | htail
    · simp only [Prod.mk.injEq] at heq
      obtain ⟨hk, hv⟩ := heq
      subst hk; subst hv
      simp [lookupA]
    · have hmemk : k ∈ List.map Prod.fst rest := List.mem_map.mpr ⟨(k, v), htail, rfl⟩
      have hk1 : k1 ≠ k := by
        intro hcontra
        rw [hcontra] at hnd
        exact hnd.1 hmemk
      simp [lookupA, hk1, ih hnd.2 htail]

theorem setA_of_not_mem (l : List (String × PyVal)) (k : String) (v : PyVal)
    (h : k ∉ keysA l) : setA l k v = l ++ [(k, v)] := by
  induction l with
  | nil => simp [setA]
  | cons p rest ih =>
    obtain ⟨k1, v1⟩ := p
    simp only [keysA, List.map_cons, List.mem_cons] at h
    push_neg at h
    simp [setA, Ne.symm h.1, ih h.2]

/-- Lookup over a list of pairs built by pairing each name with a value
computed from it: any member name looks up to its computed value. -/
theorem lookupA_map_self (g : String → PyVal) (ns : List String) (n : String)
    (h : n ∈ ns) : lookupA n (ns.map fun m => (m, g m)) = some (g n) := by
  induction ns with
  | nil => cases h
  | cons m rest ih =>
    by_cases hm : m = n
    · subst hm
      simp [lookupA]
    · rcases List.mem_cons.mp h with heq | htail
      · exact absurd heq.symm hm
      · simp [lookupA, hm, ih htail]

theorem foldl_setA_map (g : String → String) (l : List (String × PyVal)) :
    ∀ acc : List (String × PyVal),
    (l.map fun p => g p.1).Nodup →
    (∀ p ∈ l, g p.1 ∉ keysA acc) →
    l.foldl (fun so p => setA so (g p.1) p.2) acc = acc ++ l.map (fun p => (g p.1, p.2)) := by
  induction l with
  | nil => intro acc _ _; simp
  | cons p rest ih =>
    intro acc hnd hdisj
    simp only [List.map_cons, List.nodup_cons] at hnd
    have hstep : setA acc (g p.1) p.2 = acc ++ [(g p.1, p.2)] :=
      setA_of_not_mem acc (g p.1) p.2 (hdisj p (List.mem_cons_self p rest))
    have hdisj2 : ∀ q ∈ rest, g q.1 ∉ keysA (acc ++ [(g p.1, p.2)]) := by
      intro q hq
      simp only [keysA, List.map_append, List.mem_append, List.map_cons, List.map_nil,
        List.mem_singleton]
      push_neg
      refine ⟨hdisj q (List.mem_cons_of_mem p hq), ?_⟩
      intro hcontra
      exact hnd.1 (hcontra ▸ List.mem_map.mpr ⟨q, hq, rfl⟩)
    calc (p :: rest).foldl (fun so q => setA so (g q.1) q.2) acc
        = rest.foldl (fun so q => setA so (g q.1) q.2) (acc ++ [(g p.1, p.2)]) := by
          simp [List.foldl_cons, hstep]
      _ = acc ++ [(g p.1, p.2)] ++ rest.map (fun q => (g q.1, q.2)) := ih _ hnd.2 hdisj2
      _ = acc ++ (p :: rest).map (fun q => (g q.1, q.2)) := by simp

/-- Constructing an InteractType from keyword arguments with distinct names
registers exactly those pairs, in order. -/
theorem interactTypeInit_attrs (kwargs : List (String × PyVal))
    (hnd : (keysA kwargs).Nodup) : (interactTypeInit kwargs).attrs = kwargs := by
  have hfold : ∀ (l : List (String × PyVal)) (t : InteractType),
      (keysA l).Nodup → (∀ p ∈ l, p.1 ∉ keysA t.attrs) →
      (l.foldl (fun t p => soapAttribute t p.1 p.2) t).attrs = t.attrs ++ l := by
    intro l
    induction l with
    | nil => intro t _ _; simp
    | cons p rest ih =>
      intro t hnd1 hdisj
      simp only [keysA, List.map_cons, List.nodup_cons] at hnd1
      have hstep : (soapAttribute t p.1 p.2).attrs = t.attrs ++ [p] := by
        simp only [soapAttribute]
        rw [setA_of_not_mem _ _ _ (hdisj p (List.mem_cons_self p rest))]
      have hdisj2 : ∀ q ∈ rest, q.1 ∉ keysA (soapAttribute t p.1 p.2).attrs := by
        intro q hq
        rw [hstep]
        simp only [keysA, List.map_append, List.mem_append, List.map_cons, List.map_nil,
          List.mem_singleton]
        push_neg
        refine ⟨hdisj q (List.mem_cons_of_mem p hq), ?_⟩
        intro hcontra
        exact hnd1.1 (hcontra ▸ List.mem_map.mpr ⟨q, hq, rfl⟩)
      calc ((p :: rest).foldl (fun t q => soapAttribute t q.1 q.2) t).attrs
          = (rest.foldl (fun t q => soapAttribute t q.1 q.2) (soapAttribute t p.1 p.2)).attrs := by
            simp [List.foldl_cons]
        _ = (soapAttribute t p.1 p.2).attrs ++ rest := ih _ hnd1.2 hdisj2
        _ = t.attrs ++ (p :: rest) := by rw [hstep]; simp
  have := hfold kwargs ⟨[]⟩ hnd (by intro p _; simp [keysA])
  simpa [interactTypeInit] using this

/-- With pairwise-distinct camel-cased names, the soap object's fields are
exactly the camel-cased registered attributes with their values. -/
theorem getSoapObject_eq (t : InteractType)
    (hinj : (t.attrs.map fun p => toSoapAttribute p.1).Nodup) :
    getSoapObject t = t.attrs.map fun p => (toSoapAttribute p.1, p.2) := by
  have := foldl_setA_map toSoapAttribute t.attrs [] hinj (by intro p _; simp [keysA])
  simpa [getSoapObject] using this

/-! ## Claim C2: get_soap_object field mapping -/

/-- C2 counterexample: the attribute foo_bar is registered with value 1,
but the wire field fooBar it camel-cases to holds 2, because the registered
name foo__bar camel-cases to the same field and overwrites it.  So it is
not the case that for every instance each registered attribute's
camel-cased field equals that attribute's value. -/
theorem c2_counterexample :
    ("foo_bar", PyVal.int 1) ∈ c2Collide.attrs ∧
    toSoapAttribute "foo_bar" = toSoapAttribute "foo__bar" ∧
    fldLookup (getSoapObject c2Collide) (toSoapAttribute "foo_bar") = some (PyVal.int 2) ∧
    decide (PyVal.int 2 = PyVal.int 1) = false := by decide

/-- C2 (amended): for every InteractType instance whose registered
attribute names camel-case to pairwise distinct field names (true of every
type shipped in the library), get_soap_object produces a structure on which
each registered attribute's camel-cased field equals that attribute's
current value, and no field outside the camel-cased image is set. -/
theorem c2_to_wire (kwargs : List (String × PyVal))
    (hnd : (keysA kwargs).Nodup)
    (hinj : (kwargs.map fun p => toSoapAttribute p.1).Nodup) :
    (∀ p ∈ (interactTypeInit kwargs).attrs,
        fldLookup (getSoapObject (interactTypeInit kwargs)) (toSoapAttribute p.1) = some p.2) ∧
    (∀ n, ((interactTypeInit kwargs).attrs.map fun p => toSoapAttribute p.1).all
          (fun m => !(decide (m = n))) = true →
        fldLookup (getSoapObject (interactTypeInit kwargs)) n = Option.none) := by
  have hattrs : (interactTypeInit kwargs).attrs = kwargs := interactTypeInit_attrs kwargs hnd
  have hso : getSoapObject (interactTypeInit kwargs)
      = kwargs.map fun p => (toSoapAttribute p.1, p.2) := by
    rw [getSoapObject_eq _ (by rw [hattrs]; exact hinj), hattrs]
  constructor
  · intro p hp
    rw [hattrs] at hp
    rw [hso]
    apply lookupA_of_mem_nodup
    · simpa [keysA, List.map_map, Function.comp] using hinj
    · exact List.mem_map.mpr ⟨p, hp, rfl⟩
  · intro n hn
    rw [hattrs] at hn
    rw [hso]
    show lookupA n _ = Option.none
    rw [lookupA_eq_none_iff]
    simp only [List.all_eq_true, Bool.not_eq_true', decide_eq_false_iff_not] at hn
    intro hmem
    simp only [keysA, List.map_map] at hmem
    obtain ⟨p, hp, hpn⟩ := List.mem_map.mp hmem
    exact hn (toSoapAttribute p.1) (List.mem_map.mpr ⟨p, hp, rfl⟩) hpn

/-- C2 witness: registering red_fish=True yields a structure with field
redFish equal to True and no field red_fish. -/
theorem c2_to_wire_witness :
    fldLookup (getSoapObject (interactTypeInit [("red_fish", PyVal.bool true)]))
      (toSoapAttribute "red_fish") = some (PyVal.bool true) ∧
    fldLookup (getSoapObject (interactTypeInit [("red_fish", PyVal.bool true)]))
      "red_fish" = Option.none :=
  ⟨(c2_to_wire [("red_fish", PyVal.bool true)] (by decide) (by decide)).1
      ("red_fish", PyVal.bool true) (by decide),
   (c2_to_wire [("red_fish", PyVal.bool true)] (by decide) (by decide)).2
      "red_fish" (by decide)⟩

/-! ## Claim C9: InteractType equality -/

/-- C9 counterexample: __eq__ only iterates the receiver's registered
attributes, so an instance compares equal to another that carries an extra
registered attribute; the spec's both-sided attribute comparison rejects
the pair. -/
theorem c9_counterexample :
    pyEq c9Small c9Large = Except.ok true ∧ specAttrsEqualB c9Small c9Large = false :=
  ⟨rfl, rfl⟩

/-- C9 (amended): equality as computed by __eq__ compares only the
receiver's registered attributes; for pairs in which every attribute
registered on the right-hand instance is also registered on the left (in
particular whenever the two attribute sets coincide), __eq__ returns True
iff every registered attribute of each instance compares equal to the
same-named attribute of the other. -/
theorem c9_eq_iff (a b : InteractType)
    (hba : ∀ n ∈ keysA b.attrs, n ∈ keysA a.attrs) :
    pyEq a b = Except.ok true ↔ specAttrsEqualB a b = true := by
  unfold pyEq specAttrsEqualB
  by_cases hc : (keysA a.attrs).all (fun n => (pyGetattr b n).isSome) = true
  · rw [if_pos hc, Bool.and_eq_true]
    have hok : (Except.ok ((keysA a.attrs).all fun n => pyGetattr a n == pyGetattr b n)
        : Except Unit Bool) = Except.ok true
        ↔ ((keysA a.attrs).all fun n => pyGetattr a n == pyGetattr b n) = true := by
      simp
    rw [hok]
    simp only [List.all_eq_true] at hc ⊢
    constructor
    · intro h
      refine ⟨fun n hn => ?_, fun n hn => ?_⟩
      · rw [Bool.and_eq_true]
        exact ⟨hc n hn, h n hn⟩
      · have hna := hba n hn
        rw [Bool.and_eq_true]
        refine ⟨?_, h n hna⟩
        obtain ⟨v, hv⟩ := lookupA_isSome_of_mem n a.attrs hna
        simp [pyGetattr, hv]
    · intro h n hn
      exact ((Bool.and_eq_true _ _).mp (h.1 n hn)).2
  · rw [if_neg hc]
    constructor
    · intro h
      exact absurd h (by simp)
    · intro h
      exfalso
      rw [Bool.and_eq_true] at h
      apply hc
      simp only [List.all_eq_true] at h ⊢
      intro n hn
      exact ((Bool.and_eq_true _ _).mp (h.1 n hn)).1

/-- C9 witness: on a pair of identically-built InteractObjects the iff holds
and both sides are true. -/
theorem c9_eq_iff_witness :
    (pyEq c9W c9W = Except.ok true ↔ specAttrsEqualB c9W c9W = true) ∧
    pyEq c9W c9W = Except.ok true :=
  ⟨c9_eq_iff c9W c9W (by decide), rfl⟩

/-! ## RecordData lemmas and claims C1, C7 -/

theorem mapE_ok_length {α β : Type} (f : α → Except PyExc β) :
    ∀ (l : List α) (res : List β), mapE f l = Except.ok res → res.length = l.length := by
  intro l
  induction l with
  | nil =>
    intro res h
    simp only [mapE, Except.ok.injEq] at h
    rw [← h]
    rfl
  | cons x xs ih =>
    intro res h
    simp only [mapE] at h
    cases hx : f x with
    | error e =>
      rw [hx] at h
      exact absurd h (by simp)
    | ok y =>
      rw [hx] at h
      cases hxs : mapE f xs with
      | error e =>
        rw [hxs] at h
        exact absurd h (by simp)
      | ok ys =>
        rw [hxs] at h
        simp only [Except.ok.injEq] at h
        rw [← h]
        simp [ih ys hxs]

/-- Every successfully constructed RecordData stores a non-empty list of
plain Python lists in its records attribute. -/
theorem recordDataInit_ok_records (rows : List Row) (rd : RecordData)
    (h : recordDataInit rows = Except.ok rd) :
    ∃ y ys, rd.records = RDElem.plainList y :: List.map RDElem.plainList ys := by
  match rows with
  | [] => exact absurd h (by simp [recordDataInit])
  | r0 :: rest =>
    simp only [recordDataInit] at h
    cases hm : mapE (fun r => mapE (fun fn =>
        match lookupA fn r with
        | some v => Except.ok v
        | Option.none => Except.error (PyExc.keyError fn)) (r0.map Prod.fst)) (r0 :: rest) with
    | error e =>
      rw [hm] at h
      exact absurd h (by simp)
    | ok recs =>
      rw [hm] at h
      simp only [Except.ok.injEq] at h
      have hlen : recs.length = (r0 :: rest).length := mapE_ok_length _ _ _ hm
      match recs, hlen with
      | y :: ys, _ =>
        exact ⟨y, ys, by rw [← h]; simp⟩

/-- C1: the round-trip law fails on the code.  Constructing a RecordData
from the single row mapping foo=1 succeeds, but iterating it raises
AttributeError, because set_attributes stores plain lists in records while
__iter__ reads a field_values attribute; the spec's documented iteration
(zipping field_names with each record's values) does return the original
row, on this input and in general. -/
theorem c1_iter_attribute_error :
    ((recordDataInit [[("foo", PyVal.int 1)]]).bind recordDataIterPy
      = Except.error (.attributeError "list object has no attribute field_values")) ∧
    ((recordDataInit [[("foo", PyVal.int 1)]]).map recordDataIterSpec
      = Except.ok [[("foo", PyVal.int 1)]]) ∧
    (∀ rows rd, recordDataInit rows = Except.ok rd →
      recordDataIterPy rd
        = Except.error (.attributeError "list object has no attribute field_values")) := by
  refine ⟨rfl, rfl, ?_⟩
  intro rows rd h
  obtain ⟨y, ys, hrec⟩ := recordDataInit_ok_records rows rd h
  simp [recordDataIterPy, hrec, mapE, RDElem.fieldValuesAttr]

/-- C1 witness: the failing input evaluated; iterating the RecordData
built from the row foo=1 raises AttributeError. -/
theorem c1_iter_attribute_error_witness :
    recordDataIterPy ⟨["foo"], [RDElem.plainList [PyVal.int 1]]⟩
      = Except.error (.attributeError "list object has no attribute field_values") :=
  c1_iter_attribute_error.2.2 [[("foo", PyVal.int 1)]]
    ⟨["foo"], [RDElem.plainList [PyVal.int 1]]⟩ rfl

/-- C7: constructing a RecordData from an empty sequence of row mappings
fails the non-empty assertion, and every successful construction from row
data yields at least one stored record. -/
theorem c7_nonempty_assert :
    recordDataInit [] = Except.error (PyExc.assertionError assertMsgNonZero) ∧
    (∀ rows rd, recordDataInit rows = Except.ok rd → 0 < rd.records.length) := by
  refine ⟨rfl, ?_⟩
  intro rows rd h
  obtain ⟨y, ys, hrec⟩ := recordDataInit_ok_records rows rd h
  simp [hrec]

/-- C7 witness: a one-row construction succeeds with one record. -/
theorem c7_nonempty_assert_witness :
    0 < (RecordData.mk ["foo"] [RDElem.plainList [PyVal.int 1]]).records.length :=
  c7_nonempty_assert.2 [[("foo", PyVal.int 1)]]
    ⟨["foo"], [RDElem.plainList [PyVal.int 1]]⟩ rfl

/-! ## Claim C8: ListMergeRule defaults and overrides -/

/-- C8: a ListMergeRule built with no overrides registers exactly the
twelve documented defaults; with overrides, every option attribute holds
its override-or-default value, and an attribute whose name was not
overridden keeps its documented default. -/
theorem c8_list_merge_rule_defaults (overrides : List (String × PyVal)) (name : String)
    (h : name ∈ lmrNames) :
    (listMergeRuleInit []).attrs = lmrDefaults ∧
    pyGetattr (listMergeRuleInit overrides) name = some (lmrOption overrides name) ∧
    (lookupA name overrides = Option.none →
      pyGetattr (listMergeRuleInit overrides) name = lookupA name lmrDefaults) := by
  have hkeys : keysA (lmrNames.map fun n => (n, lmrOption overrides n)) = lmrNames := by
    simp only [keysA, List.map_map]
    show List.map (fun n => n) lmrNames = lmrNames
    simp
  have hnd : (keysA (lmrNames.map fun n => (n, lmrOption overrides n))).Nodup := by
    rw [hkeys]; decide
  have hattrs : (listMergeRuleInit overrides).attrs
      = lmrNames.map fun n => (n, lmrOption overrides n) :=
    interactTypeInit_attrs _ hnd
  refine ⟨by decide, ?_, ?_⟩
  · rw [pyGetattr, hattrs]
    exact lookupA_map_self _ lmrNames name h
  · intro hov
    rw [pyGetattr, hattrs, lookupA_map_self _ lmrNames name h]
    obtain ⟨v, hv⟩ := lookupA_isSome_of_mem name lmrDefaults (by simpa [lmrNames, keysA] using h)
    simp [lmrOption, hov, hv]

/-- C8 witness: overriding optin_value changes it and leaves html_value at
its default. -/
theorem c8_list_merge_rule_defaults_witness :
    pyGetattr (listMergeRuleInit [("optin_value", PyVal.str "Y")]) "optin_value"
      = some (PyVal.str "Y") ∧
    pyGetattr (listMergeRuleInit [("optin_value", PyVal.str "Y")]) "html_value"
      = some (PyVal.str "H") :=
  ⟨(c8_list_merge_rule_defaults [("optin_value", PyVal.str "Y")] "optin_value" (by decide)).2.1,
   (c8_list_merge_rule_defaults [("optin_value", PyVal.str "Y")] "html_value" (by decide)).2.2 rfl⟩

/-! ## MergeResult.failed lemmas and claim C6 -/

theorem startsWith_le_length (p : List Char) :
    ∀ cs : List Char, startsWith p cs = true → p.length ≤ cs.length := by
  induction p with
  | nil => intro cs _; simp
  | cons a ps ih =>
    intro cs h
    cases cs with
    | nil => simp [startsWith] at h
    | cons c rest =>
      simp only [startsWith, Bool.and_eq_true] at h
      simpa [List.length_cons] using Nat.succ_le_succ (ih rest h.2)

/-- A successful pattern match consumes at least the nine characters of
the two literals, so the remaining input is strictly shorter. -/
theorem tryMatchRecord_shrink (cs cap after : List Char)
    (h : tryMatchRecord cs = some (cap, after)) : after.length + 9 ≤ cs.length := by
  simp only [tryMatchRecord] at h
  split at h
  · rename_i h1
    split at h
    · rename_i h2
      simp only [Option.some.injEq, Prod.mk.injEq] at h
      obtain ⟨hcap, hafter⟩ := h
      have hlen1 : pRecord.length ≤ cs.length := startsWith_le_length _ _ h1
      have hlen2 := startsWith_le_length _ _ h2
      subst hafter
      simp only [List.length_drop] at hlen2 ⊢
      have hp7 : pRecord.length = 7 := rfl
      have hp2 : pEq.length = 2 := rfl
      rw [hp7] at hlen1 hlen2 ⊢
      rw [hp2] at hlen2 ⊢
      omega
    · exact absurd h (by simp)
  · exact absurd h (by simp)

/-- Any fuel at least the input length yields the same scan, so the
length-fueled reFindall computes the full non-overlapping findall. -/
theorem findallAux_fuel (fuel1 : Nat) :
    ∀ (fuel2 : Nat) (cs : List Char), cs.length ≤ fuel1 → cs.length ≤ fuel2 →
    findallAux fuel1 cs = findallAux fuel2 cs := by
  induction fuel1 with
  | zero =>
    intro fuel2 cs h1 _
    have hnil : cs = [] := List.eq_nil_of_length_eq_zero (Nat.le_zero.mp h1)
    subst hnil
    cases fuel2 <;> rfl
  | succ f1 ih =>
    intro fuel2 cs h1 h2
    cases cs with
    | nil => cases fuel2 <;> rfl
    | cons c rest =>
      cases fuel2 with
      | zero => simp at h2
      | succ f2 =>
        simp only [findallAux]
        cases hm : tryMatchRecord (c :: rest) with
        | none =>
          simp only [hm]
          simp only [List.length_cons] at h1 h2
          exact ih f2 rest (by omega) (by omega)
        | some pr =>
          obtain ⟨cap, after⟩ := pr
          simp only [hm]
          have hslen := tryMatchRecord_shrink _ _ _ hm
          simp only [List.length_cons] at h1 h2 hslen
          rw [ih f2 after (by omega) (by omega)]

/-- No capture ever converts to the integer zero: a non-zero digit run
becomes its integer value and every other capture stays a string. -/
theorem mergeFailedEntry_ne_zero (f : List Char) :
    (!(decide (mergeFailedEntry f = PyVal.int 0))) = true := by
  unfold mergeFailedEntry
  split
  · rename_i hcond
    simp only [Bool.and_eq_true, decide_eq_true_eq] at hcond
    simp only [Bool.not_eq_true', decide_eq_false_iff_not]
    intro hP
    simp only [PyVal.int.injEq, Int.natCast_eq_zero] at hP
    exact hcond.2 hP
  · simp

theorem all_entries_ne_zero (l : List (List Char)) :
    ((l.map mergeFailedEntry).all fun v => !(decide (v = PyVal.int 0))) = true := by
  induction l with
  | nil => rfl
  | cons f fs ih => simp [List.all_cons, mergeFailedEntry_ne_zero f, ih]

/-- C6 counterexample: the capture 0 is numeric, yet the failed list holds
the string, not the integer: int(f) is falsy for zero, so the and-or idiom
falls through to the raw capture.  This refutes the clause that numeric
matches are returned as integers. -/
theorem c6_counterexample :
    mergeResultFailed (some "These failed: Record 0 = Test") = [PyVal.str "0"] ∧
    pyIsnumeric "0".data = true ∧
    decide (PyVal.str "0" = PyVal.int 0) = false :=
  ⟨rfl, rfl, rfl⟩

/-- C6 (amended): failed parses the Record-index pattern from the error
message in order; the documented example gives the integers 1 and 2, an
empty or absent message gives the empty list, a non-numeric (empty)
capture passes through as the string as-is, and a numeric capture becomes
its integer exactly when that integer is non-zero — a zero capture passes
through as the string, and the integer zero can never appear. -/
theorem c6_failed (em : Option String) :
    mergeResultFailed (some "These failed: Record 1 = Test, Record 2 = What")
      = [PyVal.int 1, PyVal.int 2] ∧
    mergeResultFailed (some "") = [] ∧
    mergeResultFailed Option.none = [] ∧
    mergeResultFailed (some "These failed: Record 10 = A, Record 0 = B, Record 7 = C")
      = [PyVal.int 10, PyVal.str "0", PyVal.int 7] ∧
    mergeResultFailed (some "Record  = X") = [PyVal.str ""] ∧
    ((mergeResultFailed em).all fun v => !(decide (v = PyVal.int 0))) = true := by
  refine ⟨rfl, rfl, rfl, rfl, rfl, ?_⟩
  cases em with
  | none => rfl
  | some s =>
    by_cases hs : s = ""
    · simp [mergeResultFailed, hs]
    · simp only [mergeResultFailed, if_neg hs]
      split
      · rfl
      · exact all_entries_ne_zero (reFindall s)

/-! ## Claim C4: fault translation in call() -/

/-- C4: the dispatch matches the fault name exactly and never swallows a
fault, but two rows of the claimed table cannot hold on the code: in the
exceptions module no ListFault is defined so its import fails, and the
TableFault branch passes one argument to a two-argument initializer, so a
TableFault-named fault surfaces as a TypeError.  The API_LIMIT_EXCEEDED,
AccountFault, unknown-fault and timeout rows behave as claimed, and only a
successful transport invocation returns a value. -/
theorem c4_fault_mapping :
    clientImportsResolve = false ∧
    callDispatch (TransportResult.webFault (some "TableFault") "err")
      = Except.error
          (RaisedError.typeError "TableFault.__init__ takes exactly two positional arguments") ∧
    callDispatch (TransportResult.webFault (some "ListFault") "err")
      = Except.error (RaisedError.nameError "ListFault") ∧
    callDispatch (TransportResult.webFault (some "API_LIMIT_EXCEEDED") "err")
      = Except.error (RaisedError.apiLimitError "err") ∧
    callDispatch (TransportResult.webFault (some "AccountFault") "err")
      = Except.error (RaisedError.accountFault "err") ∧
    callDispatch (TransportResult.webFault (some "SomeOtherFault") "err")
      = Except.error (RaisedError.serviceError (some "SomeOtherFault") "err") ∧
    callDispatch (TransportResult.webFault Option.none "err")
      = Except.error (RaisedError.serviceError Option.none "err") ∧
    callDispatch (TransportResult.urlError "timeout")
      = Except.error (RaisedError.connectError "Request to service timed out") ∧
    (∀ (tr : TransportResult) (v : PyVal),
      callDispatch tr = Except.ok v → tr = TransportResult.success v) := by
  refine ⟨rfl, rfl, rfl, rfl, rfl, rfl, rfl, rfl, ?_⟩
  intro tr v h
  cases tr with
  | success w =>
    simp only [callDispatch, Except.ok.injEq] at h
    rw [h]
  | urlError m => exact absurd h (by simp [callDispatch])
  | webFault fs detail =>
    exfalso
    simp only [callDispatch] at h
    split at h
    · split at h <;> exact absurd h (by simp)
    · split at h
      · split at h <;> exact absurd h (by simp)
      · split at h
        · exact absurd h (by simp)
        · split at h <;> exact absurd h (by simp)

/-- C4 witness: a successful transport invocation is returned unchanged;
the no-swallowing clause applied at a concrete success value. -/
theorem c4_fault_mapping_witness :
    TransportResult.success (PyVal.int 5) = TransportResult.success (PyVal.int 5) :=
  c4_fault_mapping.2.2.2.2.2.2.2.2 (TransportResult.success (PyVal.int 5)) (PyVal.int 5) rfl

/-! ## Claim C3: connect performs login iff needed -/

/-- C3: from a fresh client the first connect performs the login exchange
(count 1); a second connect before expiry performs none (count stays 1);
with a negative configured lifetime any later connect finds the session
expired and performs exactly one more login (count 2); and in general a
connect increments the login count iff no session exists or the stored
session is expired at the time of the call. -/
theorem c3_connect_login (sl : Option Int) (t0 t1 : Int) (s1 s2 : PyVal)
    (h01 : t0 ≤ t1) :
    (connect (interactClientInit sl) t0 s1).loginCount = 1 ∧
    (t1 < t0 + effectiveLifetime sl →
      (connect (connect (interactClientInit sl) t0 s1) t1 s2).loginCount = 1) ∧
    (effectiveLifetime sl < 0 →
      (connect (connect (interactClientInit sl) t0 s1) t1 s2).loginCount = 2) ∧
    (∀ (c : ClientState) (t : Int) (sid : PyVal),
      (connect c t sid).loginCount = c.loginCount + 1 ↔
        (c.session = Option.none ∨ sessionExpiredAt c t = true)) := by
  have hc1 : connect (interactClientInit sl) t0 s1 =
      { session := some (s1, t0), session_lifetime := effectiveLifetime sl,
        connected := some t0, loginCount := 1, logoutCount := 0 } := by
    simp [connect, interactClientInit, needsLogin]
  refine ⟨by rw [hc1], ?_, ?_, ?_⟩
  · intro h
    rw [hc1]
    have hng : needsLogin ({ session := some (s1, t0),
                             session_lifetime := effectiveLifetime sl,
                             connected := some t0,
                             loginCount := 1, logoutCount := 0 } : ClientState) t1 = false := by
      simp only [needsLogin, sessionExpiredAt, Option.isNone_some, Bool.false_or,
        decide_eq_false_iff_not]
      omega
    simp [connect, hng]
  · intro h
    rw [hc1]
    have hng : needsLogin ({ session := some (s1, t0),
                             session_lifetime := effectiveLifetime sl,
                             connected := some t0,
                             loginCount := 1, logoutCount := 0 } : ClientState) t1 = true := by
      simp only [needsLogin, sessionExpiredAt, Option.isNone_some, Bool.false_or,
        decide_eq_true_eq]
      omega
    simp [connect, hng]
  · intro c t sid
    by_cases hn : needsLogin c t = true
    · simp only [connect, hn, if_true, true_iff]
      have hn2 := hn
      simp only [needsLogin, Bool.or_eq_true] at hn2
      rcases hn2 with hs | he
      · exact Or.inl (Option.isNone_iff_eq_none.mp hs)
      · exact Or.inr he
    · have hnf : needsLogin c t = false := by simpa using hn
      have hsame : (connect c t sid).loginCount = c.loginCount := by
        simp [connect, hnf]
      constructor
      · intro habs
        exfalso
        omega
      · intro hor
        exfalso
        apply hn
        simp only [needsLogin, Bool.or_eq_true]
        rcases hor with hs | he
        · exact Or.inl (by simp [hs])
        · exact Or.inr he

/-- C3 witness: with lifetime -5 the second connect logs in again (count
2); with the default lifetime a second immediate connect does not (count
stays 1). -/
theorem c3_connect_login_witness :
    (connect (connect (interactClientInit (some (-5))) 0 (PyVal.str "a")) 0
      (PyVal.str "b")).loginCount = 2 ∧
    (connect (connect (interactClientInit Option.none) 0 (PyVal.str "a")) 0
      (PyVal.str "b")).loginCount = 1 :=
  ⟨(c3_connect_login (some (-5)) 0 0 (PyVal.str "a") (PyVal.str "b") (by decide)).2.2.1
      (by decide),
   (c3_connect_login Option.none 0 0 (PyVal.str "a") (PyVal.str "b") (by decide)).2.1
      (by decide)⟩

/-! ## Claim C5: disconnect semantics -/

/-- C5: disconnecting a still-valid session without abandonment performs
no logout exchange and leaves the stored session unchanged; disconnecting
with abandon_session, or with an expired session, performs exactly one
logout and nulls the session; in every case the connected marker is
cleared. -/
theorem c5_disconnect (c : ClientState) (now : Int) :
    (∀ sid issued, c.session = some (sid, issued) →
      now < issued + c.session_lifetime →
      (disconnect c now false).logoutCount = c.logoutCount ∧
      (disconnect c now false).session = c.session) ∧
    ((disconnect c now true).logoutCount = c.logoutCount + 1 ∧
      (disconnect c now true).session = Option.none) ∧
    (∀ (ab : Bool) (sid : PyVal) (issued : Int), c.session = some (sid, issued) →
      issued + c.session_lifetime ≤ now →
      (disconnect c now ab).logoutCount = c.logoutCount + 1 ∧
      (disconnect c now ab).session = Option.none) ∧
    (∀ ab : Bool, (disconnect c now ab).connected = Option.none) := by
  refine ⟨?_, ?_, ?_, ?_⟩
  · intro sid issued hs hvalid
    have hexp : sessionExpiredAt { c with connected := Option.none } now = false := by
      simp only [sessionExpiredAt, hs]
      simp
      omega
    simp [disconnect, hexp]
  · simp [disconnect]
  · intro ab sid issued hs hexp
    have hexpired : sessionExpiredAt ({ session := some (sid, issued),
                                        session_lifetime := c.session_lifetime,
                                        connected := Option.none,
                                        loginCount := c.loginCount,
                                        logoutCount := c.logoutCount } : ClientState) now = true := by
      simp only [sessionExpiredAt]
      simpa using hexp
    simp [disconnect, hs, hexpired]
  · intro ab
    simp only [disconnect]
    split <;> rfl

/-- C5 witness: an expired session (issued 0, lifetime -1, now 5) is
logged out and cleared even without abandonment; a valid session (default
lifetime) is kept with no logout; the connected marker clears. -/
theorem c5_disconnect_witness :
    ((disconnect ⟨some (PyVal.str "sid", 0), -1, some 0, 1, 0⟩ 5 false).logoutCount = 1 ∧
      (disconnect ⟨some (PyVal.str "sid", 0), -1, some 0, 1, 0⟩ 5 false).session
        = Option.none) ∧
    ((disconnect ⟨some (PyVal.str "sid", 0), 600, some 0, 1, 0⟩ 5 false).logoutCount = 0 ∧
      (disconnect ⟨some (PyVal.str "sid", 0), 600, some 0, 1, 0⟩ 5 false).session
        = some (PyVal.str "sid", 0)) ∧
    (disconnect ⟨some (PyVal.str "sid", 0), 600, some 0, 1, 0⟩ 5 true).connected
      = Option.none :=
  ⟨(c5_disconnect ⟨some (PyVal.str "sid", 0), -1, some 0, 1, 0⟩ 5).2.2.1 false
      (PyVal.str "sid") 0 rfl (by decide),
   (c5_disconnect ⟨some (PyVal.str "sid", 0), 600, some 0, 1, 0⟩ 5).1
      (PyVal.str "sid") 0 rfl (by decide),
   (c5_disconnect ⟨some (PyVal.str "sid", 0), 600, some 0, 1, 0⟩ 5).2.2.2 true⟩

/-! ## Claim C10: falsy session_lifetime falls back to the default -/

/-- C10: a falsy session_lifetime override (absent, None, or zero) leaves
the effective lifetime at the default 600 seconds, so a zero-second
lifetime cannot be configured; any non-zero override, negative values
included, takes effect. -/
theorem c10_lifetime (v : Int) (hv : v ≠ 0) :
    (interactClientInit Option.none).session_lifetime = 600 ∧
    (interactClientInit (some 0)).session_lifetime = 600 ∧
    (interactClientInit (some v)).session_lifetime = v := by
  refine ⟨rfl, rfl, ?_⟩
  simp [interactClientInit, effectiveLifetime, hv]

/-- C10 witness: the override -1 is kept. -/
theorem c10_lifetime_witness :
    (interactClientInit (some (-1))).session_lifetime = -1 :=
  (c10_lifetime (-1) (by decide)).2.2

end Responsys
